import Mathlib

/-!
Verification of the alife simulation engine (github.com/dnesting/alife).

Shallow embedding of the Go sources:
* goalife/energy/energy.go                    (energy stores, transfer)
* goalife/grid2d (grid.go, locator.go)        (2D world, locators)
* goalife/grid2d/org (org.go)                 (organism actions)
* goalife/grid2d/org/cpu1 (cpu.go, ops.go, code.go) (bytecode CPU, mutation)

Machine integers are modelled as unbounded Int/Nat (the program never
approaches 32/64-bit bounds in the scenarios treated here); Go float64
values that only ever hold exactly representable quantities are modelled
as rationals; a Go panic is modelled as a `none` result.  Go's `%` on
ints truncates toward zero, which is `Int.tmod`.
-/

namespace Alife

/-! ## Definitions -/

/-! ### Energy stores (goalife/energy/energy.go)

`Store.AddEnergy` is a CAS loop; under one mutator it performs its body
once, which is what we embed.  The body is

    v := orig + amt; nv := v
    if nv < 0 { nv = 0; amt -= int(v) }
    return amt, nv
-/

/-- `Store.AddEnergy`: returns (actual adjustment, new level). -/
def addEnergy (v amt : Int) : Int × Int :=
  let v' := v + amt
  if v' < 0 then (amt - v', 0) else (amt, v')

/-- Body of `energy.Transfer` after the negative-amount swap:
`actual, srcE := src.AddEnergy(-amt); _, destE := dest.AddEnergy(-actual);
return -actual, destE, srcE`.  First argument is the destination level,
second the source level. -/
def transferCore (dV sV amt : Int) : Int × Int × Int :=
  let p := addEnergy sV (-amt)
  let q := addEnergy dV (-p.1)
  (-p.1, q.2, p.2)

/-- `energy.Transfer(dest, src, amt)`: for negative `amt` the roles of the
two stores are swapped and `amt` negated (`dest, src = src, dest; amt = -amt`). -/
def transfer (dV sV amt : Int) : Int × Int × Int :=
  if amt < 0 then transferCore sV dV (-amt) else transferCore dV sV amt

/-- `Organism.Discharge` (goalife/grid2d/org, org.go):
`act, _ := o.AddEnergy(-amt); if amt != -act { return ErrNoEnergy }`.
Returns (success?, new level); `false` stands for `ErrNoEnergy`. -/
def discharge (v amt : Int) : Bool × Int :=
  let p := addEnergy v (-amt)
  (decide (amt = -p.1), p.2)

/-! ### Grid (goalife/grid2d grid.go and locator.go)

The Go grid holds `data []*locator` of length `width*height`; a locator
carries its coordinates, its occupant value `v`, and an `invalid` flag.
We represent locators by indices into an append-only list `locs`, so a
cell holds `Option Nat` (`none` = nil pointer).  Go `nil` occupant
arguments are `Option Occupant`.
-/

/-- Occupant values stored in the grid.  The grid treats occupants
opaquely; `food`, organisms and the Null placeholder are the kinds the
simulation uses. -/
inductive Occupant where
  | food (e : Int)
  | org (tag : Nat)
  | null
  deriving DecidableEq

/-- One `*locator` object: coordinates, occupant value, invalid flag. -/
structure LocInfo where
  x : Int
  y : Int
  v : Occupant
  invalid : Bool
  deriving DecidableEq

/-- The grid: extents, the cell array (`data`), and the pool of locator
objects ever minted (so invalidated locators can still be observed). -/
structure GridState where
  width : Int
  height : Int
  cells : List (Option Nat)
  locs : List LocInfo
  deriving DecidableEq

/-- `grid.offset`: panics (`none`) when `x < 0 || x > width || y < 0 || y > height`
(note `>` rather than `>=`), else returns `y*width + x`. -/
def gridOffset (g : GridState) (x y : Int) : Option Int :=
  if x < 0 ∨ x > g.width ∨ y < 0 ∨ y > g.height then none
  else some (y * g.width + x)

/-- A read of `g.data[off]`: Go panics (`none`) when the index is outside
the slice. -/
def dataAt (g : GridState) (off : Int) : Option (Option Nat) :=
  if h : 0 ≤ off ∧ off.toNat < g.cells.length then some (g.cells.get ⟨off.toNat, h.2⟩)
  else none

/-- `grid.getLocked(x, y)`: `g.data[g.offset(x, y)]`. -/
def getLocked (g : GridState) (x y : Int) : Option (Option Nat) :=
  match gridOffset g x y with
  | none => none
  | some off => dataAt g off

/-- `grid.Get(x, y)` takes the read lock, calls `getLocked` and normalizes
a nil `*locator` to a nil interface (the identity in this model).
Outer `none` = panic, `some none` = empty cell, `some (some l)` = locator. -/
def gridGet (g : GridState) (x y : Int) : Option (Option Nat) :=
  getLocked g x y

/-- The recognized `PutWhenFunc` values: `grid2d.PutAlways`, `grid2d.PutWhenNil`
and `org.PutWhenFood`. -/
inductive PutWhen where
  | always
  | whenNil
  | whenFood
  deriving DecidableEq

/-- Evaluation of the three `PutWhenFunc` values on (existing, proposed):
`PutAlways` is constantly true; `PutWhenNil` tests `existing == nil`;
`org.PutWhenFood` accepts nil or a `*food.Food`. -/
def shouldPut : PutWhen → Option Occupant → Option Occupant → Bool
  | .always, _, _ => true
  | .whenNil, a, _ =>
    match a with
    | none => true
    | some _ => false
  | .whenFood, a, _ =>
    match a with
    | none => true
    | some (.food _) => true
    | some _ => false

/-- `locator.Value()`: nil locator yields nil, else the stored occupant. -/
def locValue (g : GridState) (lid : Option Nat) : Option Occupant :=
  match lid with
  | none => none
  | some i => Option.map (fun li => li.v) g.locs[i]?

/-- `locator.invalidate` applied to the locator with index `i` (a no-op on
a nil locator, which has no index here). -/
def invalidateAt (ls : List LocInfo) (i : Nat) : List LocInfo :=
  match ls[i]? with
  | none => ls
  | some li => ls.set i { li with invalid := true }

/-- `locator.IsValid()`: false for a nil locator, else the negation of the
invalid flag. -/
def isValid (g : GridState) (lid : Option Nat) : Bool :=
  match lid with
  | none => false
  | some i =>
    match g.locs[i]? with
    | none => false
    | some li => !li.invalid

/-- `grid.putLocked(x, y, n, fn)`: reads the original locator and value,
consults `shouldPut`, then mints a locator for a non-nil `n`, invalidates
the original locator and stores the new one in the cell.  Returns
(original value, new locator, new grid); `none` = panic.  (The
notification calls and the `UsesLocator` hand-off do not change grid
state and are omitted.) -/
def putLocked (g : GridState) (x y : Int) (n : Option Occupant) (fn : PutWhen) :
    Option (Option Occupant × Option Nat × GridState) :=
  match gridOffset g x y with
  | none => none
  | some off =>
    match dataAt g off with
    | none => none
    | some origLoc =>
      let origValue := locValue g origLoc
      if shouldPut fn origValue n then
        let newId : Option Nat :=
          match n with
          | none => none
          | some _ => some g.locs.length
        let locs1 : List LocInfo :=
          match n with
          | none => g.locs
          | some v => g.locs ++ [⟨x, y, v, false⟩]
        let locs2 : List LocInfo :=
          match origLoc with
          | none => locs1
          | some oid => invalidateAt locs1 oid
        some (origValue, newId, { g with cells := g.cells.set off.toNat newId, locs := locs2 })
      else
        some (origValue, none, g)

/-- `grid.Put` (takes the write lock, calls `putLocked`, then notifies). -/
def gridPut (g : GridState) (x y : Int) (n : Option Occupant) (fn : PutWhen) :
    Option (Option Occupant × Option Nat × GridState) :=
  putLocked g x y n fn

/-- `locator.delta(dx, dy)`: Go computes `(l.x+dx) % width` and
`(l.y+dy) % height` with Go's truncated `%` (= `Int.tmod`) and adds the
extent when the remainder is negative. -/
def locDelta (w h x y dx dy : Int) : Int × Int :=
  let x1 := (x + dx).tmod w
  let y1 := (y + dy).tmod h
  (if x1 < 0 then x1 + w else x1, if y1 < 0 then y1 + h else y1)

/-- `locator.Get(dx, dy)`: panics (`none`) on an invalid locator or a
violated location invariant, else reads the cell at the wrapped relative
coordinates. -/
def locatorGet (g : GridState) (lid : Nat) (dx dy : Int) : Option (Option Nat) :=
  match g.locs[lid]? with
  | none => none
  | some li =>
    if li.invalid then none
    else if getLocked g li.x li.y ≠ some (some lid) then none
    else
      let p := locDelta g.width g.height li.x li.y dx dy
      getLocked g p.1 p.2

/-- `locator.Put(dx, dy, n, fn)`: validity and location-invariant checks,
then `putLocked` at the wrapped relative coordinates. -/
def locatorPut (g : GridState) (lid : Nat) (dx dy : Int) (n : Option Occupant) (fn : PutWhen) :
    Option (Option Occupant × Option Nat × GridState) :=
  match g.locs[lid]? with
  | none => none
  | some li =>
    if li.invalid then none
    else if getLocked g li.x li.y ≠ some (some lid) then none
    else
      let p := locDelta g.width g.height li.x li.y dx dy
      putLocked g p.1 p.2 n fn

/-! ### Organism (goalife/grid2d/org, org.go) -/

/-- `org.BodyEnergy`. -/
def BodyEnergy : Int := 1000

/-- `org.SenseFalloffExp`. -/
def SenseFalloffExp : Nat := 2

/-- `org.SenseDistance`. -/
def SenseDistance : Nat := 10

/-- `Organism.delta(dist)`: relative coordinates of the cell `dist` cells
away in the organism's direction; panics (`none`) outside `0..=7`. -/
def orgDelta (dir : Nat) (dist : Int) : Option (Int × Int) :=
  match dir with
  | 0 => some (dist, 0)
  | 1 => some (dist, -dist)
  | 2 => some (0, -dist)
  | 3 => some (-dist, -dist)
  | 4 => some (-dist, 0)
  | 5 => some (-dist, dist)
  | 6 => some (0, dist)
  | 7 => some (dist, dist)
  | _ => none

/-- Go's `int(x)` conversion from float64 truncates toward zero; on exact
rational values that is truncated division of numerator by denominator. -/
def truncInt (q : ℚ) : Int :=
  q.num.tdiv q.den

/-- Result of `Organism.Divide`: parent energy level, child energy level
(for a successful division), resulting grid, child locator. -/
inductive DivideOut where
  | panicked
  | noEnergy (parentE : Int)
  | notEmpty (parentE : Int) (g : GridState)
  | ok (parentE childE : Int) (g : GridState) (childLoc : Nat)
  deriving DecidableEq

/-- `Organism.Divide(driver, energyFrac)`:

    if err := o.Discharge(BodyEnergy); err != nil { return nil, err }
    n := Random(); n.Driver = driver          // child store starts at 0
    dx, dy := o.delta(1)
    if _, loc := o.loc.Put(dx, dy, n, PutWhenFood); loc != nil {
        energy.Transfer(n, o, int(float64(o.Energy())*energyFrac))
        return n, nil
    }
    return nil, ErrNotEmpty

`parentE` is the parent's store level, `lid` its locator, `dir` its
direction.  The driver value and the child's random direction do not
affect the quantities claimed and are not tracked. -/
def divide (g : GridState) (lid : Nat) (dir : Nat) (parentE : Int) (frac : ℚ) : DivideOut :=
  let d := discharge parentE BodyEnergy
  if d.1 = false then .noEnergy d.2
  else
    match orgDelta dir 1 with
    | none => .panicked
    | some dxy =>
      match locatorPut g lid dxy.1 dxy.2 (some (.org 0)) .whenFood with
      | none => .panicked
      | some (_, none, g1) => .notEmpty d.2 g1
      | some (_, some childLoc, g1) =>
        let amt := truncInt ((d.2 : ℚ) * frac)
        let t := transfer 0 d.2 amt
        .ok t.2.2 t.2.1 g1 childLoc

/-- The Go type assertion `n.(energy.Energetic)` inside `Organism.Sense`,
where `n` is the `grid2d.Locator` returned by `o.loc.Get` (not its
`Value()`).  The dynamic type of every such `n` is `*grid2d.locator`,
whose method set (Get, Put, Move, Replace, Remove, RemoveWithPlaceholder,
IsValid, Value, String) contains neither `Energy() int` nor
`AddEnergy(int) (int, int)`, so the assertion fails for every locator. -/
def locatorAsEnergetic (_g : GridState) (_lid : Nat) : Option Int :=
  none

/-- One iteration of the `Organism.Sense` loop at distance `i`:

    if n := o.loc.Get(o.delta(i)); n != nil {
        if n, ok := n.(energy.Energetic); ok {
            e += float64(n.Energy()) * fn(n) / math.Pow(float64(i), SenseFalloffExp)
        }
    }

The caller-supplied filter `fn` is only evaluated inside the `ok` branch,
which is unreachable (see `locatorAsEnergetic`), so it is not a parameter
here.  `none` = panic inside `Get`. -/
def senseStep (g : GridState) (lid : Nat) (dir : Nat) (i : Nat) : Option ℚ :=
  match orgDelta dir (i : Int) with
  | none => none
  | some dxy =>
    match locatorGet g lid dxy.1 dxy.2 with
    | none => none
    | some none => some 0
    | some (some nid) =>
      match locatorAsEnergetic g nid with
      | none => some 0
      | some e => some ((e : ℚ) / ((i : ℚ) ^ SenseFalloffExp))

/-- `Organism.Sense`: sums the contributions for `i = 1 .. SenseDistance`. -/
def sense (g : GridState) (lid : Nat) (dir : Nat) : Option ℚ :=
  (List.range SenseDistance).foldl
    (fun acc j =>
      match acc, senseStep g lid dir (j + 1) with
      | some e, some c => some (e + c)
      | _, _ => none)
    (some 0)

/-! ### CPU driver (goalife/grid2d/org/cpu1: cpu.go, ops.go, code.go)

The opcode table `Ops` lists 45 opcodes; `Op.Cost` is the instruction's
energy cost above the default 1.  All entries carry cost 0 except
`Eat` (38), `Left` (39), `Right` (40) with cost 5 and `Forward` (41)
with cost 10.
-/

/-- The `Cost` column of the `Ops` table, by opcode byte.  Indices:
0 XXX, 1-4 L1-L4, 5-8 Jump1-4, 9-12 JumpR1-4, 13-15 SwapAB/AC/AD,
16 Zero, 17 Shl0, 18 Shl1, 19 Shr, 20 Inc, 21 Dec, 22 Add, 23 Sub,
24 Div, 25 Mul, 26 And, 27 Or, 28 Xor, 29 Mod, 30-33 IfEq/IfNe/IfGt/IfLt,
34 IfZ, 35 IfNZ, 36 IfLoop, 37 Jump, 38 Eat, 39 Left, 40 Right,
41 Forward, 42 Divide, 43 Sense, 44 SenseOthers. -/
def opsCost : List Int :=
  [0, 0, 0, 0, 0,
   0, 0, 0, 0,
   0, 0, 0, 0,
   0, 0, 0,
   0, 0, 0, 0,
   0, 0,
   0, 0, 0, 0,
   0, 0, 0, 0,
   0, 0, 0, 0,
   0, 0, 0, 0,
   5, 5, 5, 10,
   0, 0, 0]

/-- `len(Ops)`. -/
def opsLen : Nat := opsCost.length

/-- The CPU: instruction pointer and bytecode.  (The four registers exist
in the source but none of the properties settled here mention them.) -/
structure Cpu where
  ip : Int
  code : List Nat
  deriving DecidableEq

/-- `Cpu.readOp`:

    c.Ip %= len(c.Code)            // panics when len(c.Code) == 0
    if c.Ip < 0 { return nil, c.Ip + 1 }
    b := c.Code[c.Ip]
    if b < 0 || b > byte(len(Ops)) { return nil, c.Ip + 1 }
    return &Ops[b], c.Ip + 1       // panics when b == len(Ops)

`b < 0` is vacuous for a byte.  The final indexing `Ops[b]` carries Go's
runtime bounds check, modelled by the table lookup; the guard admits
`b == len(Ops)`, for which the lookup panics (`none`). -/
def readOp (c : Cpu) : Option (Option Nat × Int) :=
  if c.code.length = 0 then none
  else
    let ip := c.ip.tmod (c.code.length : Int)
    if ip < 0 then some (none, ip + 1)
    else
      let b := c.code.getD ip.toNat 0
      if opsLen < b then some (none, ip + 1)
      else
        match opsCost[b]? with
        | none => none
        | some _ => some (some b, ip + 1)

/-- Result of one `Cpu.Step`: `badOp` is the `unable to read next
instruction` error, `noEnergy` is `ErrNoEnergy` propagated from
`Discharge`, and `invoked b ip e` records that the step reached
`op.Fn` for opcode byte `b` with the new instruction pointer and the
organism's energy after the discharge.  (The claims settled here concern
what happens up to the invocation; `op.Fn` itself is not modelled.) -/
inductive StepOut where
  | panicked
  | badOp (ip : Int)
  | noEnergy (ip energy : Int)
  | invoked (b : Nat) (ip energy : Int)
  deriving DecidableEq

/-- `Cpu.Step(o)`:

    op, ip := c.readOp()
    c.Ip = ip
    if op == nil { return unableToReadErr }
    // All operations cost at least 1 energy, to avoid infinite loops.
    if err := o.Discharge(1 + op.Cost); err != nil { return err }
    if err := op.Fn(o, c); err != nil { return err }

`orgE` is the organism's energy level. -/
def step (c : Cpu) (orgE : Int) : StepOut :=
  match readOp c with
  | none => .panicked
  | some (none, ip) => .badOp ip
  | some (some b, ip) =>
    let cost := 1 + opsCost.getD b 0
    let d := discharge orgE cost
    if d.1 = false then .noEnergy ip d.2
    else .invoked b ip d.2

/-! ### Bytecode mutation (code.go) -/

/-- Substitution branch of `Bytecode.Mutate`: `d[i] = byte(rand.Intn(maxOp))`
on a copy. -/
def mutateSub (code : List Nat) (i newByte : Nat) : List Nat :=
  code.set i newByte

/-- Duplication branch: `d` has length `len+l`; `d[:i] = code[:i]`,
`d[j] = code[j % len]` for `j` in `[i, i+l)`, `d[i+l:] = code[i:]`. -/
def mutateDup (code : List Nat) (i l : Nat) : List Nat :=
  code.take i ++ (List.range l).map (fun k => code.getD ((i + k) % code.length) 0)
    ++ code.drop i

/-- Deletion branch: `l` is truncated to `len - i` when `i+l > len`, then
`d = code[:i] ++ code[i+l:]` (list take/drop realize the truncation). -/
def mutateDel (code : List Nat) (i l : Nat) : List Nat :=
  code.take i ++ code.drop (i + l)

/-- The branch selection of `Bytecode.Mutate`: `d` stays nil when no branch
fires.  The guards are `prob < 0.333 && c.Len() > 0`, `prob < 0.666`, and
`c.Len() > 0` (the float constants are modelled as exact rationals). -/
def mutateCandidate (code : List Nat) (i l newByte : Nat) (prob : ℚ) : List Nat :=
  if prob < 333/1000 ∧ 0 < code.length then mutateSub code i newByte
  else if prob < 666/1000 then mutateDup code i l
  else if 0 < code.length then mutateDel code i l
  else []

/-- `Bytecode.Mutate`: `i = rand.Intn(len)`, `l = ceil(|N(0,1)*5|)`,
`prob = rand.Float32()`; one of the three branches produces a candidate
`d`, which replaces the code only when non-empty.  The random draws are
explicit parameters. -/
def mutate (code : List Nat) (i l newByte : Nat) (prob : ℚ) : List Nat :=
  let d := mutateCandidate code i l newByte prob
  if 0 < d.length then d else code

/-! ### Concrete fixtures used by counterexamples and witnesses -/

/-- A 2x2 grid holding one occupant at (0,0) with locator id 0. -/
def exGrid1 : GridState :=
  ⟨2, 2, [some 0, none, none, none], [⟨0, 0, .food 5, false⟩]⟩

/-- A 3x3 grid with an organism at (1,1) facing east (locator id 0); the
cell (2,1) directly ahead holds `c` (locator id 1 when occupied). -/
def divGrid : Option Occupant → GridState
  | none => ⟨3, 3, [none, none, none, none, some 0, none, none, none, none],
      [⟨1, 1, .org 1, false⟩]⟩
  | some c => ⟨3, 3, [none, none, none, none, some 0, some 1, none, none, none],
      [⟨1, 1, .org 1, false⟩, ⟨2, 1, c, false⟩]⟩

/-- A 3x3 grid with an organism at (0,0) facing east (locator id 0) and a
Food of energy 100 at (1,0), directly ahead (locator id 1). -/
def senseGrid : GridState :=
  ⟨3, 3, [some 0, some 1, none, none, none, none, none, none, none],
    [⟨0, 0, .org 1, false⟩, ⟨1, 0, .food 100, false⟩]⟩

/-! ## Theorems -/

/-! ### Helper lemmas -/

theorem tmodNegLeft (a b : Int) : (-a).tmod b = -(a.tmod b) := by
  cases a with
  | ofNat m =>
    cases m with
    | zero => simp
    | succ k =>
      rw [show -(Int.ofNat (k+1)) = Int.negSucc k from rfl]
      cases b with
      | ofNat n => simp [Int.tmod]
      | negSucc n => simp [Int.tmod]
  | negSucc m =>
    rw [show -(Int.negSucc m) = Int.ofNat (m+1) from rfl]
    cases b with
    | ofNat n => simp [Int.tmod]
    | negSucc n => simp [Int.tmod]

theorem wrapT_eq_emod (s w : Int) (hw : 0 < w) :
    (if s.tmod w < 0 then s.tmod w + w else s.tmod w) = s % w := by
  have hub : s.tmod w < w := Int.tmod_lt_of_pos s hw
  have hlb : -w < s.tmod w := by
    rcases le_or_lt 0 s with hs | hs
    · have := Int.tmod_nonneg w hs
      omega
    · have h1 : 0 ≤ (-s).tmod w := Int.tmod_nonneg w (by omega)
      have h2 : (-s).tmod w < w := Int.tmod_lt_of_pos (-s) hw
      rw [tmodNegLeft] at h1 h2
      omega
  have hdvd : w ∣ s - s.tmod w := by
    rw [Int.tmod_def]
    exact ⟨s.tdiv w, by ring⟩
  obtain ⟨q, hq⟩ := hdvd
  set t := s.tmod w with ht
  have hs2 : s = t + w * q := by omega
  rw [hs2, Int.add_mul_emod_self_left]
  split
  · rename_i hneg
    have h3 : t % w = (t + w * 1) % w := by rw [Int.add_mul_emod_self_left]
    rw [h3, mul_one, Int.emod_eq_of_lt (by omega) (by omega)]
  · rename_i hpos
    rw [Int.emod_eq_of_lt (by omega) (by omega)]

theorem locDelta_eq_emod (w h x y dx dy : Int) (hw : 0 < w) (hh : 0 < h) :
    locDelta w h x y dx dy = ((x + dx) % w, (y + dy) % h) := by
  simp only [locDelta]
  rw [wrapT_eq_emod (x + dx) w hw, wrapT_eq_emod (y + dy) h hh]

theorem offsetBounds (w h x y : Int) (hx0 : 0 ≤ x) (hx : x < w) (hy0 : 0 ≤ y) (hy : y < h) :
    0 ≤ y * w + x ∧ y * w + x < w * h := by
  constructor
  · have := mul_nonneg hy0 (by omega : (0:Int) ≤ w)
    omega
  · have h1 : y + 1 ≤ h := by omega
    have h2 : (y + 1) * w ≤ h * w := mul_le_mul_of_nonneg_right h1 (by omega)
    have h3 : (y + 1) * w = y * w + w := by ring
    have h4 : h * w = w * h := mul_comm _ _
    omega

theorem getLocked_in_range (g : GridState) (x y : Int) (hx0 : 0 ≤ x) (hx : x < g.width)
    (hy0 : 0 ≤ y) (hy : y < g.height)
    (hlen : (g.cells.length : Int) = g.width * g.height) :
    getLocked g x y = g.cells[(y * g.width + x).toNat]? := by
  obtain ⟨hoff0, hoff⟩ := offsetBounds g.width g.height x y hx0 hx hy0 hy
  simp only [getLocked, gridOffset]
  rw [if_neg (by omega)]
  simp only [dataAt]
  rw [dif_pos ⟨hoff0, by omega⟩]
  rw [List.getElem?_eq_getElem (by omega), List.get_eq_getElem]

theorem addEnergy_snd_nonneg (v a : Int) (hv : 0 ≤ v) : 0 ≤ (addEnergy v a).2 := by
  simp only [addEnergy]
  split <;> simp <;> omega

theorem foldl_addEnergy_nonneg (v : Int) (hv : 0 ≤ v) (amts : List Int) :
    0 ≤ amts.foldl (fun s a => (addEnergy s a).2) v := by
  induction amts generalizing v with
  | nil => simpa using hv
  | cons a rest ih =>
    simpa using ih _ (addEnergy_snd_nonneg v a hv)

theorem discharge_ok (v amt : Int) (h : amt ≤ v) : discharge v amt = (true, v - amt) := by
  simp only [discharge, addEnergy]
  have hc : ¬ (v + -amt < 0) := by omega
  simp only [if_neg hc, neg_neg]
  have h2 : v + -amt = v - amt := by omega
  rw [h2]
  simp

theorem discharge_fail (v amt : Int) (h : v < amt) : discharge v amt = (false, 0) := by
  simp only [discharge, addEnergy]
  have hc : v + -amt < 0 := by omega
  simp only [if_pos hc]
  have h2 : -(-amt - (v + -amt)) = v := by omega
  rw [h2]
  simp only [Prod.mk.injEq, decide_eq_false_iff_not]
  exact ⟨by omega, trivial⟩

theorem transfer_no_clamp (d s amt : Int) (hd : 0 ≤ d) (h0 : 0 ≤ amt) (h : amt ≤ s) :
    transfer d s amt = (amt, d + amt, s - amt) := by
  unfold transfer
  rw [if_neg (by omega)]
  simp only [transferCore, addEnergy]
  have hc1 : ¬ (s + -amt < 0) := by omega
  simp only [if_neg hc1, neg_neg]
  have hc2 : ¬ (d + amt < 0) := by omega
  simp only [if_neg hc2]
  have h2 : s + -amt = s - amt := by omega
  rw [h2]

theorem truncInt_mul_le (a : Int) (frac : ℚ) (ha : 0 ≤ a) (h0 : 0 ≤ frac) (h1 : frac ≤ 1) :
    0 ≤ truncInt ((a:ℚ) * frac) ∧ truncInt ((a:ℚ) * frac) ≤ a := by
  have hq0 : 0 ≤ (a:ℚ) * frac := mul_nonneg (by exact_mod_cast ha) h0
  have hqa : (a:ℚ) * frac ≤ (a:ℚ) := mul_le_of_le_one_right (by exact_mod_cast ha) h1
  have hnum : 0 ≤ ((a:ℚ) * frac).num := Rat.num_nonneg.mpr hq0
  have hfloor : truncInt ((a:ℚ) * frac) = ⌊(a:ℚ) * frac⌋ := by
    unfold truncInt
    rw [Int.tdiv_eq_ediv hnum (by positivity), Rat.floor_def]
  constructor
  · rw [hfloor]
    exact Int.floor_nonneg.mpr hq0
  · rw [hfloor]
    have h2 := Int.floor_le_floor hqa
    simpa using h2

/-! ### Claim C1 -/

/-- Claim C1 counterexample: on a 2x2 grid with an occupant at (0,0),
`Get(0 + 1*w, 0)` does not return the same locator as `Get(0, 0)` (it
reads the cell array at offset 2, an empty cell), and `Get(0 + 2*w, 0)`
panics in `grid.offset` — so `Get` neither wraps coordinates nor succeeds
on out-of-range input. -/
theorem c1_counterexample :
    gridGet exGrid1 (0 + 1 * 2) 0 ≠ gridGet exGrid1 0 0 ∧
    gridGet exGrid1 (0 + 2 * 2) 0 = none := by
  decide

/-- Claim C1 amended: `grid.Get` does not wrap coordinates.  For
`0 ≤ x < w` and `0 ≤ y < h` it returns the cell array entry at index
`y*w + x`; for `x < 0`, `x > w`, `y < 0` or `y > h` it panics (the bounds
check uses `>` rather than `>=`).  Toroidal wrapping is provided instead
by `locator.delta`, used by all locator-relative operations, which is
invariant under adding any multiple of the width/height to the relative
offsets. -/
theorem c1_get_no_wrap_delta_wraps :
    (∀ (g : GridState) (x y : Int), 0 ≤ x → x < g.width → 0 ≤ y → y < g.height →
      (g.cells.length : Int) = g.width * g.height →
      gridGet g x y = g.cells[(y * g.width + x).toNat]?) ∧
    (∀ (g : GridState) (x y : Int), x < 0 ∨ g.width < x ∨ y < 0 ∨ g.height < y →
      gridGet g x y = none) ∧
    (∀ (w h x y dx dy a b : Int), 0 < w → 0 < h →
      locDelta w h x y (dx + a * w) (dy + b * h) = locDelta w h x y dx dy) := by
  refine ⟨?_, ?_, ?_⟩
  · intro g x y hx0 hx hy0 hy hlen
    simp only [gridGet]
    exact getLocked_in_range g x y hx0 hx hy0 hy hlen
  · intro g x y hout
    simp only [gridGet, getLocked, gridOffset]
    rw [if_pos (by omega)]
  · intro w h x y dx dy a b hw hh
    have e1 : x + (dx + a * w) = (x + dx) + a * w := by ring
    have e2 : y + (dy + b * h) = (y + dy) + b * h := by ring
    rw [locDelta_eq_emod _ _ _ _ _ _ hw hh, locDelta_eq_emod _ _ _ _ _ _ hw hh, e1, e2,
      Int.add_mul_emod_self, Int.add_mul_emod_self]

theorem c1_get_no_wrap_delta_wraps_witness :
    gridGet exGrid1 1 1 = exGrid1.cells[((1 : Int) * exGrid1.width + 1).toNat]? ∧
    gridGet exGrid1 3 0 = none ∧
    locDelta 2 2 0 0 (1 + 5 * 2) (0 + (-2) * 2) = locDelta 2 2 0 0 1 0 :=
  ⟨c1_get_no_wrap_delta_wraps.1 exGrid1 1 1 (by decide) (by decide) (by decide) (by decide)
      (by decide),
   c1_get_no_wrap_delta_wraps.2.1 exGrid1 3 0 (by decide),
   c1_get_no_wrap_delta_wraps.2.2 2 2 0 0 1 0 5 (-2) (by decide) (by decide)⟩

/-! ### Claim C2 -/

/-- Claim C2: on a store at level `v ≥ 0`, `AddEnergy(-k)` with `k ≥ 0` returns
applied `= -min(k, v)` and new level `= max(v-k, 0)`; consequently the stored
level is never negative after any sequence of `AddEnergy` calls. -/
theorem c2_addEnergy_clamped (v k : Int) (hv : 0 ≤ v) (hk : 0 ≤ k) :
    addEnergy v (-k) = (-(min k v), max (v - k) 0) ∧
    ∀ amts : List Int, 0 ≤ amts.foldl (fun s a => (addEnergy s a).2) v := by
  refine ⟨?_, foldl_addEnergy_nonneg v hv⟩
  simp only [addEnergy]
  split <;> simp [Prod.ext_iff] <;> omega

theorem c2_addEnergy_clamped_witness :
    addEnergy 5 (-7) = (-(min 7 5), max (5 - 7) 0) ∧
    ∀ amts : List Int, 0 ≤ amts.foldl (fun s a => (addEnergy s a).2) 5 :=
  c2_addEnergy_clamped 5 7 (by decide) (by decide)

/-! ### Claim C3 -/

theorem transferCore_spec (dV sV amt : Int) (hd : 0 ≤ dV) (hs : 0 ≤ sV)
    (ha : 0 ≤ amt) :
    (transferCore dV sV amt).2.1 + (transferCore dV sV amt).2.2 = dV + sV ∧
    (transferCore dV sV amt).1 = min amt sV := by
  simp only [transferCore, addEnergy]
  split <;> split <;> simp <;> omega

/-- Claim C3: `Transfer(dst, src, amt)` conserves total energy for any sign of
`amt`: the two resulting levels sum to the sum of the two input levels, and for
`amt ≥ 0` the amount actually moved is clamped to the source's available energy. -/
theorem c3_transfer_conserves (d s amt : Int) (hd : 0 ≤ d) (hs : 0 ≤ s) :
    (transfer d s amt).2.1 + (transfer d s amt).2.2 = d + s ∧
    (0 ≤ amt → (transfer d s amt).1 = min amt s) := by
  unfold transfer
  split
  · rename_i hneg
    have h := transferCore_spec s d (-amt) hs hd (by omega)
    exact ⟨by omega, fun h0 => absurd h0 (by omega)⟩
  · rename_i hpos
    have h := transferCore_spec d s amt hd hs (by omega)
    exact ⟨h.1, fun _ => h.2⟩

theorem c3_transfer_conserves_witness :
    (transfer 10 3 7).2.1 + (transfer 10 3 7).2.2 = 10 + 3 ∧
    (0 ≤ (7:Int) → (transfer 10 3 7).1 = min 7 3) :=
  c3_transfer_conserves 10 3 7 (by decide) (by decide)

/-! ### Claim C4 -/

/-- Claim C4: after `grid.Put(x, y, o, PutAlways)` returns `(prev, L)` for a
non-nil occupant `o` at in-range coordinates on a well-formed grid:
`grid.Get(x, y)` returns `L`, `L.Value()` equals `o`, `L` is valid, and any
locator that previously referenced cell (x, y) now has `IsValid() = false`. -/
theorem c4_put_always_invalidates (g : GridState) (x y : Int) (o : Occupant)
    (hlen : (g.cells.length : Int) = g.width * g.height)
    (hids : g.cells.all (fun c => c.all fun oid => decide (oid < g.locs.length)) = true)
    (hx0 : 0 ≤ x) (hx : x < g.width) (hy0 : 0 ≤ y) (hy : y < g.height) :
    ∃ ov g', gridPut g x y (some o) .always = some (ov, some g.locs.length, g') ∧
      gridGet g' x y = some (some g.locs.length) ∧
      locValue g' (some g.locs.length) = some o ∧
      isValid g' (some g.locs.length) = true ∧
      ∀ oid, getLocked g x y = some (some oid) → isValid g' (some oid) = false := by
  obtain ⟨hoff0, hoff⟩ := offsetBounds g.width g.height x y hx0 hx hy0 hy
  have hcell : (y * g.width + x).toNat < g.cells.length := by omega
  have hgo : gridOffset g x y = some (y * g.width + x) := by
    simp only [gridOffset]
    rw [if_neg (by omega)]
  have hda : dataAt g (y * g.width + x) = some (g.cells[(y * g.width + x).toNat]) := by
    simp only [dataAt]
    rw [dif_pos ⟨hoff0, hcell⟩, List.get_eq_getElem]
  have hgl : getLocked g x y = some (g.cells[(y * g.width + x).toNat]) := by
    rw [getLocked_in_range g x y hx0 hx hy0 hy hlen, List.getElem?_eq_getElem hcell]
  rcases hc : g.cells[(y * g.width + x).toNat] with _ | oid
  · -- the cell was empty: no prior locator
    refine ⟨none, { g with
        cells := g.cells.set (y * g.width + x).toNat (some g.locs.length),
        locs := g.locs ++ [⟨x, y, o, false⟩] }, ?_, ?_, ?_, ?_, ?_⟩
    · simp only [gridPut, putLocked, hgo, hda, hc, shouldPut, if_true, locValue]
    · rw [gridGet]
      rw [getLocked_in_range _ x y hx0 (by simpa using hx) hy0 (by simpa using hy)
        (by simpa using hlen)]
      simp only [List.getElem?_set_self (by simpa using hcell)]
    · simp only [locValue, List.getElem?_concat_length, Option.map_some']
    · simp only [isValid, List.getElem?_concat_length, Bool.not_false]
    · intro oid h
      rw [hgl, hc] at h
      simp at h
  · -- the cell held the locator `oid`, which gets invalidated
    have hmem : some oid ∈ g.cells := List.getElem?_mem (by rw [List.getElem?_eq_getElem hcell, hc])
    have hoid : oid < g.locs.length := by
      have h1 := List.all_eq_true.mp hids _ hmem
      simpa [Option.all] using h1
    have hne : oid ≠ g.locs.length := by omega
    have hlocs1at : (g.locs ++ [(⟨x, y, o, false⟩ : LocInfo)])[oid]? = some g.locs[oid] := by
      rw [List.getElem?_append_left hoid]
      exact List.getElem?_eq_getElem hoid
    have hinv : invalidateAt (g.locs ++ [(⟨x, y, o, false⟩ : LocInfo)]) oid =
        (g.locs ++ [(⟨x, y, o, false⟩ : LocInfo)]).set oid { g.locs[oid] with invalid := true } := by
      simp only [invalidateAt, hlocs1at]
    refine ⟨locValue g (some oid), { g with
        cells := g.cells.set (y * g.width + x).toNat (some g.locs.length),
        locs := (g.locs ++ [(⟨x, y, o, false⟩ : LocInfo)]).set oid
          { g.locs[oid] with invalid := true } }, ?_, ?_, ?_, ?_, ?_⟩
    · simp only [gridPut, putLocked, hgo, hda, hc, shouldPut, if_true, hinv]
    · rw [gridGet]
      rw [getLocked_in_range _ x y hx0 (by simpa using hx) hy0 (by simpa using hy)
        (by simpa using hlen)]
      simp only [List.getElem?_set_self (by simpa using hcell)]
    · simp only [locValue, List.getElem?_set_ne hne, List.getElem?_concat_length,
        Option.map_some']
    · simp only [isValid, List.getElem?_set_ne hne, List.getElem?_concat_length, Bool.not_false]
    · intro z h
      rw [hgl, hc] at h
      have hz : z = oid := by
        have h2 := Option.some.inj (Option.some.inj h)
        omega
      subst hz
      have hlt : z < ((g.locs ++ [(⟨x, y, o, false⟩ : LocInfo)]).length) := by
        simp only [List.length_append, List.length_singleton]
        omega
      simp only [isValid, List.getElem?_set_self hlt, Bool.not_true]

theorem c4_put_always_invalidates_witness :
    ∃ ov g', gridPut exGrid1 0 0 (some (.org 7)) .always =
        some (ov, some exGrid1.locs.length, g') ∧
      gridGet g' 0 0 = some (some exGrid1.locs.length) ∧
      locValue g' (some exGrid1.locs.length) = some (.org 7) ∧
      isValid g' (some exGrid1.locs.length) = true ∧
      ∀ oid, getLocked exGrid1 0 0 = some (some oid) → isValid g' (some oid) = false :=
  c4_put_always_invalidates exGrid1 0 0 (.org 7) (by decide) (by decide) (by decide)
    (by decide) (by decide) (by decide)

/-! ### Claim C5 -/

/-- Claim C5 counterexample: stepping opcode Zero (byte 16, a plain register
opcode with table cost 0) with organism energy 5 reaches the opcode function
with energy 4: exactly 1 unit was discharged, not the 2 the claim asserts for
a plain register opcode. -/
theorem c5_counterexample :
    step ⟨0, [16]⟩ 5 = .invoked 16 1 4 ∧ ((5 : Int) - 4) ≠ 2 := by
  decide

/-- Claim C5 amended: on every Step that decodes opcode byte `b`, the energy
discharged from the organism before invoking the opcode's function is exactly
`1 + op.cost`, where the table cost is 0 for the plain register opcodes (total
1, not 2), 5 for Eat (total 6) and 10 for Forward (total 11); when the
discharge fails, Step returns ErrNoEnergy without invoking the function,
leaving the organism drained to 0. -/
theorem c5_step_discharges_one_plus_cost (c : Cpu) (orgE : Int) (b : Nat) (ip : Int)
    (h : readOp c = some (some b, ip)) (hE : 0 ≤ orgE) :
    (1 + opsCost.getD b 0 ≤ orgE →
      step c orgE = .invoked b ip (orgE - (1 + opsCost.getD b 0))) ∧
    (orgE < 1 + opsCost.getD b 0 → step c orgE = .noEnergy ip 0) ∧
    opsCost.getD 16 0 = 0 ∧ opsCost.getD 38 0 = 5 ∧ opsCost.getD 41 0 = 10 := by
  refine ⟨?_, ?_, by decide, by decide, by decide⟩
  · intro hge
    simp only [step, h]
    rw [discharge_ok _ _ hge]
    simp
  · intro hlt
    simp only [step, h]
    rw [discharge_fail _ _ hlt]
    simp

theorem c5_step_discharges_one_plus_cost_witness :
    (1 + opsCost.getD 41 0 ≤ (11 : Int) →
      step ⟨0, [41]⟩ 11 = .invoked 41 1 (11 - (1 + opsCost.getD 41 0))) ∧
    ((11 : Int) < 1 + opsCost.getD 41 0 → step ⟨0, [41]⟩ 11 = .noEnergy 1 0) ∧
    opsCost.getD 16 0 = 0 ∧ opsCost.getD 38 0 = 5 ∧ opsCost.getD 41 0 = 10 :=
  c5_step_discharges_one_plus_cost ⟨0, [41]⟩ 11 41 1 (by decide) (by decide)

/-! ### Claim C6 -/

/-- Claim C6 (code-bug exhibit): the guard in `readOp` is
`b > byte(len(Ops))` rather than `>=`, so the byte 45 = `len(Ops)` escapes it
and `Ops[b]` panics with an index-out-of-range — Step crashes instead of
returning the decode error.  Byte 46 is caught by the guard and yields the
decode error as documented, and for in-range bytes the instruction pointer is
first wrapped modulo `len(code)` (here 5 mod 2 = 1, so byte 17 executes). -/
theorem c6_byte45_panics :
    step ⟨0, [45]⟩ 100 = .panicked ∧
    step ⟨0, [46]⟩ 100 = .badOp 1 ∧
    step ⟨5, [16, 17]⟩ 100 = .invoked 17 2 99 := by
  decide

/-! ### Claim C7 -/

/-- Claim C7 counterexample: the spec's scenario — parent at (1,1) with energy
3000 facing east, cell (2,1) empty, `Divide(driver, 0.5)` — ends with parent
energy 1000 and child energy 1000, not parent 500 and child 1500: the code
discharges BodyEnergy first and transfers `int(float64(o.Energy())*frac)` of
the *remaining* energy. -/
theorem c7_counterexample :
    divide (divGrid none) 0 0 3000 (1/2) =
      .ok 1000 1000
        ⟨3, 3, [none, none, none, none, some 0, some 1, none, none, none],
          [⟨1, 1, .org 1, false⟩, ⟨2, 1, .org 0, false⟩]⟩ 1 ∧
    divide (divGrid none) 0 0 3000 (1/2) ≠
      .ok 500 1500
        ⟨3, 3, [none, none, none, none, some 0, some 1, none, none, none],
          [⟨1, 1, .org 1, false⟩, ⟨2, 1, .org 0, false⟩]⟩ 1 := by
  have hd : discharge 3000 BodyEnergy = (true, 2000) := by
    rw [discharge_ok _ _ (by norm_num [BodyEnergy])]
    norm_num [BodyEnergy]
  have hlp : locatorPut (divGrid none) 0 1 0 (some (.org 0)) .whenFood =
      some (none, some 1,
        ⟨3, 3, [none, none, none, none, some 0, some 1, none, none, none],
          [⟨1, 1, .org 1, false⟩, ⟨2, 1, .org 0, false⟩]⟩) := by
    decide
  have hamt : truncInt (((2000 : Int) : ℚ) * (1/2)) = 1000 := by
    norm_num [truncInt]
  have ht : transfer 0 2000 1000 = (1000, 1000, 1000) := by decide
  have heval : divide (divGrid none) 0 0 3000 (1/2) =
      .ok 1000 1000
        ⟨3, 3, [none, none, none, none, some 0, some 1, none, none, none],
          [⟨1, 1, .org 1, false⟩, ⟨2, 1, .org 0, false⟩]⟩ 1 := by
    simp only [divide, hd, orgDelta, hlp, hamt, ht]
    simp
  refine ⟨heval, ?_⟩
  rw [heval]
  decide

/-- Claim C7 amended: `Divide(driver, frac)` first discharges BodyEnergy from
the parent (failing with ErrNoEnergy, and draining the parent, when its energy
is below BodyEnergy), then places the child in the cell directly ahead when
`PutWhenFood` permits (empty or Food — another organism yields ErrNotEmpty
with BodyEnergy already gone), and transfers `int(float64(E') * frac)` of the
parent's *post-discharge* energy `E' = E - BodyEnergy` to the child; a parent
with energy 3000 and frac = 0.5 ends with energy 1000 while the child receives
1000. -/
theorem c7_divide_spec (E : Int) (frac : ℚ) (hE : BodyEnergy ≤ E)
    (hf0 : 0 ≤ frac) (hf1 : frac ≤ 1) :
    (divide (divGrid none) 0 0 E frac =
      .ok (E - BodyEnergy - truncInt (((E - BodyEnergy : Int) : ℚ) * frac))
          (truncInt (((E - BodyEnergy : Int) : ℚ) * frac))
          ⟨3, 3, [none, none, none, none, some 0, some 1, none, none, none],
            [⟨1, 1, .org 1, false⟩, ⟨2, 1, .org 0, false⟩]⟩ 1) ∧
    (divide (divGrid (some (.food 200))) 0 0 E frac =
      .ok (E - BodyEnergy - truncInt (((E - BodyEnergy : Int) : ℚ) * frac))
          (truncInt (((E - BodyEnergy : Int) : ℚ) * frac))
          ⟨3, 3, [none, none, none, none, some 0, some 2, none, none, none],
            [⟨1, 1, .org 1, false⟩, ⟨2, 1, .food 200, true⟩, ⟨2, 1, .org 0, false⟩]⟩ 2) ∧
    (divide (divGrid (some (.org 5))) 0 0 E frac =
      .notEmpty (E - BodyEnergy) (divGrid (some (.org 5)))) ∧
    (∀ E' : Int, 0 ≤ E' → E' < BodyEnergy →
      divide (divGrid none) 0 0 E' frac = .noEnergy 0) := by
  have hE' : 0 ≤ E - BodyEnergy := by omega
  obtain ⟨ht0, htle⟩ := truncInt_mul_le (E - BodyEnergy) frac hE' hf0 hf1
  have hd : discharge E BodyEnergy = (true, E - BodyEnergy) := discharge_ok _ _ hE
  have htr : transfer 0 (E - BodyEnergy) (truncInt (((E - BodyEnergy : Int) : ℚ) * frac)) =
      (truncInt (((E - BodyEnergy : Int) : ℚ) * frac),
       0 + truncInt (((E - BodyEnergy : Int) : ℚ) * frac),
       E - BodyEnergy - truncInt (((E - BodyEnergy : Int) : ℚ) * frac)) :=
    transfer_no_clamp 0 (E - BodyEnergy) _ le_rfl ht0 htle
  refine ⟨?_, ?_, ?_, ?_⟩
  · have hlp : locatorPut (divGrid none) 0 1 0 (some (.org 0)) .whenFood =
        some (none, some 1,
          ⟨3, 3, [none, none, none, none, some 0, some 1, none, none, none],
            [⟨1, 1, .org 1, false⟩, ⟨2, 1, .org 0, false⟩]⟩) := by
      decide
    simp only [divide, hd, orgDelta, hlp, htr]
    simp
  · have hlp : locatorPut (divGrid (some (.food 200))) 0 1 0 (some (.org 0)) .whenFood =
        some (some (.food 200), some 2,
          ⟨3, 3, [none, none, none, none, some 0, some 2, none, none, none],
            [⟨1, 1, .org 1, false⟩, ⟨2, 1, .food 200, true⟩, ⟨2, 1, .org 0, false⟩]⟩) := by
      decide
    simp only [divide, hd, orgDelta, hlp, htr]
    simp
  · have hlp : locatorPut (divGrid (some (.org 5))) 0 1 0 (some (.org 0)) .whenFood =
        some (some (.org 5), none, divGrid (some (.org 5))) := by
      decide
    simp only [divide, hd, orgDelta, hlp]
    simp
  · intro E' h0 h1
    have hdf : discharge E' BodyEnergy = (false, 0) := discharge_fail _ _ (by omega)
    simp only [divide, hdf]
    simp

theorem c7_divide_spec_witness :
    (divide (divGrid none) 0 0 3000 (1/2) =
      .ok (3000 - BodyEnergy - truncInt (((3000 - BodyEnergy : Int) : ℚ) * (1/2)))
          (truncInt (((3000 - BodyEnergy : Int) : ℚ) * (1/2)))
          ⟨3, 3, [none, none, none, none, some 0, some 1, none, none, none],
            [⟨1, 1, .org 1, false⟩, ⟨2, 1, .org 0, false⟩]⟩ 1) ∧
    (divide (divGrid (some (.food 200))) 0 0 3000 (1/2) =
      .ok (3000 - BodyEnergy - truncInt (((3000 - BodyEnergy : Int) : ℚ) * (1/2)))
          (truncInt (((3000 - BodyEnergy : Int) : ℚ) * (1/2)))
          ⟨3, 3, [none, none, none, none, some 0, some 2, none, none, none],
            [⟨1, 1, .org 1, false⟩, ⟨2, 1, .food 200, true⟩, ⟨2, 1, .org 0, false⟩]⟩ 2) ∧
    (divide (divGrid (some (.org 5))) 0 0 3000 (1/2) =
      .notEmpty (3000 - BodyEnergy) (divGrid (some (.org 5)))) ∧
    (∀ E' : Int, 0 ≤ E' → E' < BodyEnergy →
      divide (divGrid none) 0 0 E' (1/2) = .noEnergy 0) :=
  c7_divide_spec 3000 (1/2) (by norm_num [BodyEnergy]) (by norm_num) (by norm_num)

/-! ### Claim C8 -/

theorem senseStep_zero_or_none (g : GridState) (lid dir i : Nat) :
    senseStep g lid dir i = none ∨ senseStep g lid dir i = some 0 := by
  cases h1 : orgDelta dir (i : Int) with
  | none => simp [senseStep, h1]
  | some dxy =>
    cases h2 : locatorGet g lid dxy.1 dxy.2 with
    | none => simp [senseStep, h1, h2]
    | some lo =>
      cases lo with
      | none => simp [senseStep, h1, h2]
      | some nid => simp [senseStep, h1, h2, locatorAsEnergetic]

/-- Claim C8 refutation (code bug): `Sense` never observes any occupant's
energy — the `Energetic` type assertion is applied to the `Locator` value
returned by `loc.Get`, not to its `Value()`, and `*locator` implements no
`Energy` method — so every contribution is 0 and `Sense` returns 0 (or
panics on an invalid locator/direction) for every grid, organism and
filter.  In particular, in `senseGrid` a Food of energy 100 sits directly
ahead of the organism (distance 1), yet its contribution is 0 where the
claim requires 100. -/
theorem c8_sense_never_observes_energy :
    (∀ (g : GridState) (lid dir : Nat), sense g lid dir = none ∨ sense g lid dir = some 0) ∧
    locatorGet senseGrid 0 1 0 = some (some 1) ∧
    locValue senseGrid (some 1) = some (.food 100) ∧
    senseStep senseGrid 0 0 1 = some 0 ∧
    sense senseGrid 0 0 = some 0 := by
  have key : ∀ (g : GridState) (lid dir : Nat) (l : List Nat) (acc : Option ℚ),
      acc = none ∨ acc = some 0 →
      ((l.foldl (fun acc j =>
          match acc, senseStep g lid dir (j + 1) with
          | some e, some c => some (e + c)
          | _, _ => none) acc) = none ∨
        (l.foldl (fun acc j =>
          match acc, senseStep g lid dir (j + 1) with
          | some e, some c => some (e + c)
          | _, _ => none) acc) = some 0) := by
    intro g lid dir l
    induction l with
    | nil =>
      intro acc h
      simpa using h
    | cons j rest ih =>
      intro acc h
      simp only [List.foldl_cons]
      apply ih
      rcases h with h | h <;> subst h
      · simp
      · rcases senseStep_zero_or_none g lid dir (j + 1) with h2 | h2 <;> rw [h2] <;> simp
  refine ⟨?_, by decide, by decide, by decide, ?_⟩
  · intro g lid dir
    exact key g lid dir (List.range SenseDistance) (some 0) (Or.inr rfl)
  · have h1 : senseStep senseGrid 0 0 1 = some 0 := by decide
    have h2 : senseStep senseGrid 0 0 2 = some 0 := by decide
    have h3 : senseStep senseGrid 0 0 3 = some 0 := by decide
    have h4 : senseStep senseGrid 0 0 4 = some 0 := by decide
    have h5 : senseStep senseGrid 0 0 5 = some 0 := by decide
    have h6 : senseStep senseGrid 0 0 6 = some 0 := by decide
    have h7 : senseStep senseGrid 0 0 7 = some 0 := by decide
    have h8 : senseStep senseGrid 0 0 8 = some 0 := by decide
    have h9 : senseStep senseGrid 0 0 9 = some 0 := by decide
    have h10 : senseStep senseGrid 0 0 10 = some 0 := by decide
    rw [sense, SenseDistance]
    rw [show List.range 10 = [0, 1, 2, 3, 4, 5, 6, 7, 8, 9] from rfl]
    simp only [List.foldl_cons, List.foldl_nil]
    norm_num [h1, h2, h3, h4, h5, h6, h7, h8, h9, h10]

/-! ### Claim C9 -/

theorem mutateDup_length (code : List Nat) (i l : Nat) (hi : i ≤ code.length) :
    (mutateDup code i l).length = code.length + l := by
  simp [mutateDup, List.length_take, min_eq_left hi]
  omega

theorem mutateDel_length (code : List Nat) (i l : Nat) (hi : i ≤ code.length) :
    (mutateDel code i l).length = code.length - min l (code.length - i) := by
  simp [mutateDel, List.length_take, min_eq_left hi]
  omega

/-- Claim C9: for a non-empty bytecode and in-range index `i`, `Mutate`
performs exactly one of substitution (length preserved), duplication of a
wrapping segment (`new[i+k] = old[(i+k) mod len]`, prefix and tail
preserved, length `len + l`), or deletion of `min(l, len-i)` bytes at `i` —
and whenever the candidate result is empty the original is retained, so the
result is never empty. -/
theorem c9_mutate_spec (code : List Nat) (i l newByte : Nat) (prob : ℚ)
    (hne : code ≠ []) (hi : i < code.length) :
    mutate code i l newByte prob ≠ [] ∧
    (prob < 333/1000 → mutate code i l newByte prob = mutateSub code i newByte) ∧
    (¬ prob < 333/1000 → prob < 666/1000 → mutate code i l newByte prob = mutateDup code i l) ∧
    (¬ prob < 666/1000 →
      mutate code i l newByte prob =
        (if mutateDel code i l = [] then code else mutateDel code i l)) ∧
    (mutateSub code i newByte).length = code.length ∧
    (mutateSub code i newByte).getD i 0 = newByte ∧
    (∀ j, j ≠ i → (mutateSub code i newByte).getD j 0 = code.getD j 0) ∧
    (mutateDup code i l).length = code.length + l ∧
    (∀ j, j < i → (mutateDup code i l).getD j 0 = code.getD j 0) ∧
    (∀ k, k < l → (mutateDup code i l).getD (i + k) 0 = code.getD ((i + k) % code.length) 0) ∧
    (∀ j, i ≤ j → j < code.length → (mutateDup code i l).getD (j + l) 0 = code.getD j 0) ∧
    (mutateDel code i l).length = code.length - min l (code.length - i) := by
  have hlen0 : 0 < code.length := List.length_pos.mpr hne
  have hile : i ≤ code.length := le_of_lt hi
  have htake : (code.take i).length = i := by
    simp [List.length_take, min_eq_left hile]
  refine ⟨?_, ?_, ?_, ?_, ?_, ?_, ?_, mutateDup_length code i l hile, ?_, ?_, ?_,
    mutateDel_length code i l hile⟩
  · -- the result is never empty
    simp only [mutate]
    split
    · rename_i h
      exact List.length_pos.mp h
    · exact hne
  · intro hp
    have hc : mutateCandidate code i l newByte prob = mutateSub code i newByte :=
      if_pos ⟨hp, hlen0⟩
    simp only [mutate, hc]
    rw [if_pos (by simp only [mutateSub, List.length_set]; omega)]
  · intro hp1 hp2
    have hc : mutateCandidate code i l newByte prob = mutateDup code i l := by
      unfold mutateCandidate
      rw [if_neg (fun h => hp1 h.1), if_pos hp2]
    simp only [mutate, hc]
    rw [if_pos (by rw [mutateDup_length code i l hile]; omega)]
  · intro hp2
    have hp1 : ¬ prob < 333/1000 := fun h => hp2 (lt_trans h (by norm_num))
    have hc : mutateCandidate code i l newByte prob = mutateDel code i l := by
      unfold mutateCandidate
      rw [if_neg (fun h => hp1 h.1), if_neg hp2, if_pos hlen0]
    simp only [mutate, hc]
    by_cases hdel : mutateDel code i l = []
    · rw [if_neg (by rw [hdel]; simp), if_pos hdel]
    · rw [if_pos (List.length_pos.mpr hdel), if_neg hdel]
  · simp [mutateSub]
  · simp only [mutateSub, List.getD_eq_getElem?_getD]
    rw [List.getElem?_set_self hi]
    rfl
  · intro j hj
    simp only [mutateSub, List.getD_eq_getElem?_getD]
    rw [List.getElem?_set_ne (Ne.symm hj)]
  · intro j hj
    simp only [mutateDup, List.getD_eq_getElem?_getD]
    have hlen2 : (code.take i ++ (List.range l).map
        (fun k => code[(i + k) % code.length]?.getD 0)).length = i + l := by
      simp [htake]
    rw [List.getElem?_append_left (by rw [hlen2]; omega),
      List.getElem?_append_left (by rw [htake]; omega),
      List.getElem?_take_of_lt hj]
  · intro k hk
    simp only [mutateDup, List.getD_eq_getElem?_getD]
    have hlen2 : (code.take i ++ (List.range l).map
        (fun k => code[(i + k) % code.length]?.getD 0)).length = i + l := by
      simp [htake]
    rw [List.getElem?_append_left (by rw [hlen2]; omega),
      List.getElem?_append_right (by rw [htake]; omega), htake]
    have hidx : i + k - i = k := by omega
    rw [hidx, List.getElem?_map, List.getElem?_range hk]
    rfl
  · intro j hji hjl
    simp only [mutateDup, List.getD_eq_getElem?_getD]
    have hlen2 : (code.take i ++ (List.range l).map
        (fun k => code[(i + k) % code.length]?.getD 0)).length = i + l := by
      simp [htake]
    rw [List.getElem?_append_right (by rw [hlen2]; omega), hlen2, List.getElem?_drop]
    have hidx : i + (j + l - (i + l)) = j := by omega
    rw [hidx]

theorem c9_mutate_spec_witness :
    mutate [1, 2, 3] 1 2 7 (1/4) ≠ [] ∧
    ((1/4 : ℚ) < 333/1000 → mutate [1, 2, 3] 1 2 7 (1/4) = mutateSub [1, 2, 3] 1 7) ∧
    (¬ (1/4 : ℚ) < 333/1000 → (1/4 : ℚ) < 666/1000 →
      mutate [1, 2, 3] 1 2 7 (1/4) = mutateDup [1, 2, 3] 1 2) ∧
    (¬ (1/4 : ℚ) < 666/1000 →
      mutate [1, 2, 3] 1 2 7 (1/4) =
        (if mutateDel [1, 2, 3] 1 2 = [] then [1, 2, 3] else mutateDel [1, 2, 3] 1 2)) ∧
    (mutateSub [1, 2, 3] 1 7).length = [1, 2, 3].length ∧
    (mutateSub [1, 2, 3] 1 7).getD 1 0 = 7 ∧
    (∀ j, j ≠ 1 → (mutateSub [1, 2, 3] 1 7).getD j 0 = [1, 2, 3].getD j 0) ∧
    (mutateDup [1, 2, 3] 1 2).length = [1, 2, 3].length + 2 ∧
    (∀ j, j < 1 → (mutateDup [1, 2, 3] 1 2).getD j 0 = [1, 2, 3].getD j 0) ∧
    (∀ k, k < 2 →
      (mutateDup [1, 2, 3] 1 2).getD (1 + k) 0 = [1, 2, 3].getD ((1 + k) % [1, 2, 3].length) 0) ∧
    (∀ j, 1 ≤ j → j < [1, 2, 3].length →
      (mutateDup [1, 2, 3] 1 2).getD (j + 2) 0 = [1, 2, 3].getD j 0) ∧
    (mutateDel [1, 2, 3] 1 2).length = [1, 2, 3].length - min 2 ([1, 2, 3].length - 1) :=
  c9_mutate_spec [1, 2, 3] 1 2 7 (1/4) (by decide) (by decide)

/-! ### Claim C10 -/

/-- Claim C10: `Organism.Discharge(amt)` with `amt ≥ 0` succeeds exactly when
`amt ≤` the current energy (draining to exactly zero succeeds); when it fails
with `ErrNoEnergy` the store has nonetheless been drained to 0. -/
theorem c10_discharge_spec (v amt : Int) (hv : 0 ≤ v) (ha : 0 ≤ amt) :
    ((discharge v amt).1 = true ↔ amt ≤ v) ∧
    ((discharge v amt).1 = false → (discharge v amt).2 = 0) := by
  simp only [discharge, addEnergy]
  split <;> simp <;> omega

theorem c10_discharge_spec_witness :
    ((discharge 4 9).1 = true ↔ (9:Int) ≤ 4) ∧
    ((discharge 4 9).1 = false → (discharge 4 9).2 = 0) :=
  c10_discharge_spec 4 9 (by decide) (by decide)

end Alife
